import Mathlib

/-!
Verification of the per-session audio-ingestion and turn-orchestration core of
the FrankAI backend (`src/backend/src/main.py`).

The embedding models:
* the constants of `main.py` (lines 24-29);
* `is_valid_speech` (lines 242-274), with the Butterworth band-pass filter
  (`signal.butter`/`signal.filtfilt`, lines 248-253) abstracted as a function
  parameter `filt : List Q -> List Q`, since its coefficients are irrational
  floating-point values; claims about the filter-independent steps quantify
  over the filtered signal directly;
* `get_llm_response` (lines 174-209) and `text_to_speech` (lines 211-240),
  with the outbound HTTP call abstracted as a parameter and the issuing of a
  request recorded in a call log;
* the `websocket_endpoint` event loop (lines 276-396) as a step function on
  the per-session state (`audio_chunks`, `is_recording`), with the external
  collaborators (VAD verdict on the assembled frame, transcription, LLM, TTS)
  given by an `Oracles` record and every collaborator invocation recorded.

Bytes are modelled as natural numbers; a 32-bit float sample is modelled as
its underlying 4-byte group (the float reinterpretation `np.frombuffer(...,
dtype=np.float32)` is a bijection on 4-byte groups, and no claim depends on
the numeric value of a sample at the orchestrator level).  Rational numbers
stand for the real-valued audio samples inside the VAD, where all operations
of the source (mean, absolute value, percentile with linear interpolation)
are exact rational operations.
-/

namespace FrankAI

/-! ## Constants (main.py lines 24-29) -/

def SAMPLE_RATE : ℕ := 16000

def SILENCE_THRESHOLD : ℚ := 5 / 1000

def MIN_SPEECH_DURATION : ℚ := 3 / 10

def MIN_AUDIO_ENERGY : ℚ := 5 / 10000

/-- `int(0.025 * SAMPLE_RATE)` = 400 samples per 25 ms analysis frame
(main.py line 262). -/
def frame_length : ℕ := 400

/-! ## Numpy helpers used by `is_valid_speech` -/

/-- `np.mean(np.abs(l))` over an exact rational signal.  For the empty list
this yields `0/0 = 0` in `ℚ`; numpy would produce a NaN warning there, but no
claim evaluates the mean of an empty signal. -/
def npMeanAbs (l : List ℚ) : ℚ :=
  (l.map (fun x => |x|)).sum / (l.length : ℚ)

/-- The list of sub-list sizes produced by `np.array_split(l, n)`:
`len % n` parts of size `len / n + 1` followed by parts of size `len / n`. -/
def splitSizes (len n : ℕ) : List ℕ :=
  (List.range n).map (fun i => if i < len % n then len / n + 1 else len / n)

/-- Cut `l` into consecutive pieces of the given sizes. -/
def takeDrop : List α → List ℕ → List (List α)
  | _, [] => []
  | l, s :: ss => l.take s :: takeDrop (l.drop s) ss

/-- `np.array_split(l, n)` (used at main.py line 263): `n` contiguous parts of
near-equal length. -/
def array_split (l : List ℚ) (n : ℕ) : List (List ℚ) :=
  takeDrop l (splitSizes l.length n)

/-- `frames = np.array_split(filtered_audio, len(filtered_audio) // frame_length)`
(main.py line 263). -/
def vadFrames (filtered : List ℚ) : List (List ℚ) :=
  array_split filtered (filtered.length / frame_length)

/-- `frame_energies = [np.mean(np.abs(frame)) for frame in frames]`
(main.py line 264). -/
def frame_energies (filtered : List ℚ) : List ℚ :=
  (vadFrames filtered).map npMeanAbs

/-- `np.percentile(l, 10)` with numpy's default linear interpolation:
with `s` the sorted data and `h = (n-1)/10` the virtual index, the result is
`s[⌊h⌋] + (h - ⌊h⌋) * (s[⌊h⌋+1] - s[⌊h⌋])`.  Since `n ≥ 1` at every call
site, the floor of `h` is the natural-number division `(n-1)/10`.  numpy
raises on empty input; the value returned here for `[]` is junk and is proved
unreachable. -/
def percentile10 (l : List ℚ) : ℚ :=
  let s := l.insertionSort (· ≤ ·)
  let n := l.length
  let i : ℕ := (n - 1) / 10
  let h : ℚ := ((n : ℚ) - 1) / 10
  let lo := s.getD i 0
  let hi := s.getD (i + 1) lo
  lo + (h - (i : ℚ)) * (hi - lo)

/-- `speech_threshold = max(SILENCE_THRESHOLD, background_energy * 3)` where
`background_energy = np.percentile(frame_energies, 10)` (main.py 267-268). -/
def speech_threshold (energies : List ℚ) : ℚ :=
  max SILENCE_THRESHOLD (percentile10 energies * 3)

/-- Steps 4-6 of the VAD (main.py lines 262-274): partition into frames,
per-frame energies, dynamic threshold, and the final
`speech_ratio > 0.15` test, where
`speech_ratio = speech_frames / len(frames)`. -/
def vadRatioAccept (filtered : List ℚ) : Bool :=
  let energies := frame_energies filtered
  let thr := speech_threshold energies
  let speech_frames := (energies.filter (fun e => thr < e)).length
  decide ((15 : ℚ) / 100 < (speech_frames : ℚ) / ((vadFrames filtered).length : ℚ))

/-- `is_valid_speech` (main.py lines 242-274).  The band-pass filter of lines
248-253 is the parameter `filt`; everything else follows the source:
the minimum-length rejection, the energy-floor rejection on the filtered
signal, then the frame-ratio test. -/
def is_valid_speech (filt : List ℚ → List ℚ) (audio_data : List ℚ) : Bool :=
  if (audio_data.length : ℚ) < (SAMPLE_RATE : ℚ) * MIN_SPEECH_DURATION then
    false
  else
    let filtered := filt audio_data
    let energy := npMeanAbs filtered
    if energy < MIN_AUDIO_ENERGY then
      false
    else
      vadRatioAccept filtered

/-! ## Python string helpers -/

/-- Whitespace for Python `str.strip()`. -/
def isPySpace (c : Char) : Bool :=
  c = ' ' || c = '\t' || c = '\n' || c = '\r' || c = Char.ofNat 11 || c = Char.ofNat 12

/-- Python `str.strip()`. -/
def pyStrip (s : String) : String :=
  String.mk (((s.data.dropWhile isPySpace).reverse.dropWhile isPySpace).reverse)

/-! ## Frame assembly (bytes, padding, float32 reinterpretation) -/

/-- Pad a byte fragment at its end with zero bytes to the next multiple of 4
(main.py lines 356-361). -/
def padChunk (data : List ℕ) : List ℕ :=
  if data.length % 4 = 0 then data
  else data ++ List.replicate (4 - data.length % 4) 0

/-- `np.frombuffer(chunk, dtype=np.float32)`: reinterpret a byte string as
consecutive 4-byte (32-bit float) samples.  A sample is modelled as its
4-byte group.  The source only ever applies this to padded chunks, whose
length is a multiple of 4. -/
def toSamples : List ℕ → List (List ℕ)
  | b0 :: b1 :: b2 :: b3 :: rest => [b0, b1, b2, b3] :: toSamples rest
  | _ => []

/-- `np.concatenate([np.frombuffer(chunk, dtype=np.float32) for chunk in
audio_chunks])` (main.py lines 307-310). -/
def assembleFrame (chunks : List (List ℕ)) : List (List ℕ) :=
  (chunks.map toSamples).flatten

/-! ## Turn orchestrator (`websocket_endpoint`, main.py lines 276-396) -/

/-- Per-session mutable state of the event loop (main.py lines 283-284). -/
structure SessState where
  audio_chunks : List (List ℕ)
  is_recording : Bool
  deriving DecidableEq, Repr

/-- Events the session sends to the client. -/
inductive Output where
  | user_transcription (text : String)
  | status (s : String)
  | ai_response (text : String)
  | errorEvent (message : String)
  | audioBytes (b : List ℕ)
  deriving DecidableEq, Repr

/-- A record of each invocation of a collaborator (VAD check, shared
speech-to-text model, LLM HTTP request, TTS HTTP request). -/
inductive CollabCall where
  | vadCall (frame : List (List ℕ))
  | transcribeCall (frame : List (List ℕ))
  | llmCall (text : String)
  | ttsCall (text : String)
  deriving DecidableEq, Repr

/-- The outcomes of the external collaborators, abstracted: the VAD verdict on
an assembled frame (byte level; the numeric VAD itself is `is_valid_speech`
above), and the three fallible calls, each able to raise (`Except.error`). -/
structure Oracles where
  vad : List (List ℕ) → Bool
  transcribe : List (List ℕ) → Except String String
  llm_http : String → Except String String
  tts_http : String → Except String (List ℕ)

/-- `get_llm_response` (main.py lines 174-209): empty/whitespace-only input
returns `""` at once; otherwise the HTTP request is issued (recorded in the
call log) and its outcome returned. -/
def get_llm_response (http : String → Except String String) (text : String) :
    Except String String × List CollabCall :=
  if pyStrip text = "" then (Except.ok "", [])
  else (http text, [CollabCall.llmCall text])

/-- `text_to_speech` (main.py lines 211-240): empty/whitespace-only input
returns `b""` at once; otherwise the HTTP request is issued (recorded in the
call log) and its outcome returned. -/
def text_to_speech (http : String → Except String (List ℕ)) (text : String) :
    Except String (List ℕ) × List CollabCall :=
  if pyStrip text = "" then (Except.ok [], [])
  else (http text, [CollabCall.ttsCall text])

/-- Handling of the end-of-recording signal, main.py lines 297-348:
set `is_recording` to `False`; if no chunks were collected, do nothing
(`continue`); otherwise assemble the frame, run the VAD, and if it accepts,
run transcription → LLM → TTS, emitting the events of lines 322-337.  Any
exception in that inner pipeline emits `{"error": str(e)}` (line 340), and
`audio_chunks` is cleared after processing in every branch (line 343).
Returns the new state, the emitted events in order, and the collaborator
calls issued in order. -/
def processMarker (o : Oracles) (st : SessState) :
    SessState × List Output × List CollabCall :=
  if st.audio_chunks = [] then
    ({ st with is_recording := false }, [], [])
  else
    let frame := assembleFrame st.audio_chunks
    if o.vad frame then
      match o.transcribe frame with
      | Except.error e =>
          (⟨[], false⟩, [Output.errorEvent e],
           [CollabCall.vadCall frame, CollabCall.transcribeCall frame])
      | Except.ok text =>
        if pyStrip text = "" then
          (⟨[], false⟩, [],
           [CollabCall.vadCall frame, CollabCall.transcribeCall frame])
        else
          let llmRes := get_llm_response o.llm_http text
          let outHead := [Output.user_transcription text,
                          Output.status ("generating_response")]
          let callsHead := [CollabCall.vadCall frame,
                            CollabCall.transcribeCall frame] ++ llmRes.2
          match llmRes.1 with
          | Except.error e =>
              (⟨[], false⟩, outHead ++ [Output.errorEvent e], callsHead)
          | Except.ok response =>
            if pyStrip response = "" then
              (⟨[], false⟩, outHead, callsHead)
            else
              let ttsRes := text_to_speech o.tts_http response
              let outMid := outHead ++ [Output.ai_response response,
                                        Output.status ("generating_audio")]
              let callsAll := callsHead ++ ttsRes.2
              match ttsRes.1 with
              | Except.error e =>
                  (⟨[], false⟩, outMid ++ [Output.errorEvent e], callsAll)
              | Except.ok audio =>
                if audio = [] then
                  (⟨[], false⟩, outMid, callsAll)
                else
                  (⟨[], false⟩,
                   outMid ++ [Output.status ("playing_audio"),
                              Output.audioBytes audio],
                   callsAll)
    else
      (⟨[], false⟩, [], [CollabCall.vadCall frame])

/-- Handling of a binary transport message (main.py lines 293-365): an empty
byte payload fails the `message.get('bytes')` truthiness guard and is
ignored; the single zero byte is the end-of-recording signal; any other
payload starts a new recording if none is active (clearing the buffer), is
padded to a 4-byte boundary, and is appended to `audio_chunks`. -/
def handleBinary (o : Oracles) (st : SessState) (data : List ℕ) :
    SessState × List Output × List CollabCall :=
  if data = [] then (st, [], [])
  else if data = [0] then processMarker o st
  else
    let st1 := if st.is_recording then st else ⟨[], true⟩
    (⟨st1.audio_chunks ++ [padChunk data], true⟩, [], [])

/-- The recognized debug control commands of a text transport message
(main.py lines 368-383).  Malformed JSON, messages whose `type` is not
`debug`, and unknown actions are all no-ops (`otherText`). -/
inductive ControlMsg where
  | start_recording
  | stop_recording
  | otherText
  deriving DecidableEq, Repr

/-- Handling of a text transport message (main.py lines 368-383):
`start_recording` sets the recording flag and clears the buffer;
`stop_recording` only clears the recording flag. -/
def handleText (st : SessState) (m : ControlMsg) :
    SessState × List Output × List CollabCall :=
  match m with
  | ControlMsg.start_recording => (⟨[], true⟩, [], [])
  | ControlMsg.stop_recording => (⟨st.audio_chunks, false⟩, [], [])
  | ControlMsg.otherText => (st, [], [])

/-- Fold a sequence of binary fragments through the event loop. -/
def runFragments (o : Oracles) (st : SessState) (frags : List (List ℕ)) :
    SessState :=
  frags.foldl (fun s f => (handleBinary o s f).1) st

/-! ## The partition the spec describes (for claim C3)

The spec/claim wording: "fixed-length frames of 400 samples ... when the
signal length is not a multiple of 400 the final partial frame is included as
one short frame".  These definitions follow that wording, to be compared with
`vadFrames`, which follows the source. -/

/-- Fuel-driven worker for `specFrames`; the fuel (the list length at the
start) dominates the number of 400-sample steps, so the recursion is
structural and kernel-evaluable. -/
def specChunksGo : ℕ → List ℚ → List (List ℚ)
  | _, [] => []
  | 0, _ :: _ => []
  | f + 1, x :: xs => ((x :: xs).take 400) :: specChunksGo f ((x :: xs).drop 400)

/-- Partition into fixed 400-sample frames, final short frame included
(the partition described by the spec's words, not the source). -/
def specFrames (l : List ℚ) : List (List ℚ) := specChunksGo l.length l

/-- Fuel-driven worker for `specSizes`. -/
def specSizesGo : ℕ → ℕ → List ℕ
  | _, 0 => []
  | 0, _ + 1 => []
  | f + 1, n + 1 => min 400 (n + 1) :: specSizesGo f (n + 1 - 400)

/-- The frame sizes of the spec-worded partition: blocks of 400, final short
block. -/
def specSizes (len : ℕ) : List ℕ := specSizesGo len len

/-! ## Helper lemmas -/

lemma sum_range_ite (n m q : ℕ) :
    (((List.range n).map (fun i => if i < m then q + 1 else q)).sum)
      = n * q + min m n := by
  induction n with
  | zero => simp
  | succ n ih =>
    rw [List.range_succ, List.map_append, List.sum_append, ih, Nat.succ_mul]
    by_cases h : n < m
    · rw [Nat.min_eq_right (Nat.le_of_lt h), Nat.min_eq_right h]
      simp only [List.map_cons, List.map_nil, if_pos h, List.sum_cons,
        List.sum_nil]
      omega
    · rw [Nat.min_eq_left (by omega : m ≤ n), Nat.min_eq_left (by omega : m ≤ n + 1)]
      simp only [List.map_cons, List.map_nil, if_neg h, List.sum_cons,
        List.sum_nil]
      omega

lemma splitSizes_sum (len n : ℕ) (hn : 0 < n) :
    (splitSizes len n).sum = len := by
  unfold splitSizes
  rw [sum_range_ite]
  have h1 : len % n < n := Nat.mod_lt _ hn
  have h2 := Nat.div_add_mod len n
  omega

lemma takeDrop_map_length :
    ∀ (sizes : List ℕ) (l : List α), sizes.sum ≤ l.length →
      (takeDrop l sizes).map List.length = sizes := by
  intro sizes
  induction sizes with
  | nil => intro l _; rfl
  | cons s ss ih =>
    intro l h
    simp only [List.sum_cons] at h
    simp only [takeDrop, List.map_cons, List.length_take]
    rw [ih (l.drop s) (by simp only [List.length_drop]; omega)]
    congr 1
    omega

lemma takeDrop_flatten :
    ∀ (sizes : List ℕ) (l : List α), sizes.sum = l.length →
      (takeDrop l sizes).flatten = l := by
  intro sizes
  induction sizes with
  | nil =>
    intro l h
    simp only [List.sum_nil] at h
    have : l = [] := List.eq_nil_of_length_eq_zero h.symm
    simp [this, takeDrop]
  | cons s ss ih =>
    intro l h
    simp only [List.sum_cons] at h
    simp only [takeDrop, List.flatten_cons]
    rw [ih (l.drop s) (by simp only [List.length_drop]; omega)]
    exact List.take_append_drop s l

lemma takeDrop_blocks :
    ∀ (k : ℕ) (n : ℕ) (v : α) (t : List α) (ss : List ℕ),
      takeDrop (List.replicate (k * n) v ++ t) (List.replicate k n ++ ss)
        = List.replicate k (List.replicate n v) ++ takeDrop t ss := by
  intro k
  induction k with
  | zero => intro n v t ss; simp
  | succ k ih =>
    intro n v t ss
    have hrep : List.replicate ((k + 1) * n) v
        = List.replicate n v ++ List.replicate (k * n) v := by
      rw [← List.replicate_add]
      congr 1
      ring
    rw [hrep, List.append_assoc, List.replicate_succ, List.cons_append, takeDrop]
    rw [List.take_left' (List.length_replicate n v),
      List.drop_left' (List.length_replicate n v)]
    rw [ih, List.replicate_succ, List.cons_append]

lemma npMeanAbs_replicate (n : ℕ) (c : ℚ) (h : n ≠ 0) :
    npMeanAbs (List.replicate n c) = |c| := by
  unfold npMeanAbs
  rw [List.map_replicate, List.sum_replicate, List.length_replicate,
    nsmul_eq_mul]
  exact mul_div_cancel_left₀ _ (by exact_mod_cast h)

lemma npMeanAbs_replicate_zero (n : ℕ) :
    npMeanAbs (List.replicate n (0 : ℚ)) = 0 := by
  unfold npMeanAbs
  rw [List.map_replicate, abs_zero, List.sum_replicate, smul_zero, zero_div]

lemma padChunk_mod (d : List ℕ) : (padChunk d).length % 4 = 0 := by
  unfold padChunk
  split
  · assumption
  · rw [List.length_append, List.length_replicate]
    omega

lemma toSamples_nil : toSamples [] = [] := rfl

lemma toSamples_append_bounded :
    ∀ (m : ℕ) (a b : List ℕ), a.length ≤ m → a.length % 4 = 0 →
      toSamples (a ++ b) = toSamples a ++ toSamples b := by
  intro m
  induction m with
  | zero =>
    intro a b hlen _
    have ha : a = [] := List.eq_nil_of_length_eq_zero (Nat.le_zero.mp hlen)
    rw [ha, List.nil_append, toSamples_nil, List.nil_append]
  | succ m ih =>
    intro a b hlen hmod
    match a with
    | [] => rw [List.nil_append, toSamples_nil, List.nil_append]
    | [x] => simp at hmod
    | [x, y] => simp at hmod
    | [x, y, z] => simp at hmod
    | x1 :: x2 :: x3 :: x4 :: rest =>
      have h1 : rest.length ≤ m := by
        simp only [List.length_cons] at hlen
        omega
      have h2 : rest.length % 4 = 0 := by
        simp only [List.length_cons] at hmod
        omega
      show toSamples (x1 :: x2 :: x3 :: x4 :: (rest ++ b)) = _
      rw [show toSamples (x1 :: x2 :: x3 :: x4 :: (rest ++ b))
            = [x1, x2, x3, x4] :: toSamples (rest ++ b) from rfl,
        show toSamples (x1 :: x2 :: x3 :: x4 :: rest)
            = [x1, x2, x3, x4] :: toSamples rest from rfl,
        ih rest b h1 h2, List.cons_append]

lemma toSamples_append (a b : List ℕ) (h : a.length % 4 = 0) :
    toSamples (a ++ b) = toSamples a ++ toSamples b :=
  toSamples_append_bounded a.length a b le_rfl h

lemma assembleFrame_eq_toSamples :
    ∀ (cs : List (List ℕ)), (∀ c ∈ cs, c.length % 4 = 0) →
      assembleFrame cs = toSamples cs.flatten := by
  intro cs
  induction cs with
  | nil => intro _; rfl
  | cons c rest ih =>
    intro h
    have hc : c.length % 4 = 0 := h c (by simp)
    have hrest : ∀ x ∈ rest, x.length % 4 = 0 := fun x hx => h x (by simp [hx])
    simp only [assembleFrame, List.map_cons, List.flatten_cons] at ih ⊢
    rw [toSamples_append c rest.flatten hc, ih hrest]

lemma specChunksGo_map_length :
    ∀ (f : ℕ) (l : List ℚ), l.length ≤ f →
      (specChunksGo f l).map List.length = specSizesGo f l.length := by
  intro f
  induction f with
  | zero =>
    intro l hlen
    have : l = [] := List.eq_nil_of_length_eq_zero (Nat.le_zero.mp hlen)
    simp [this, specChunksGo, specSizesGo]
  | succ f ih =>
    intro l hlen
    match l with
    | [] => simp [specChunksGo, specSizesGo]
    | x :: xs =>
      rw [specChunksGo]
      simp only [List.map_cons, List.length_take, List.length_cons]
      rw [ih ((x :: xs).drop 400)
        (by
          simp only [List.length_drop, List.length_cons] at hlen ⊢
          omega)]
      simp only [List.length_drop, List.length_cons]
      rw [specSizesGo]

lemma specFrames_map_length (l : List ℚ) :
    (specFrames l).map List.length = specSizes l.length :=
  specChunksGo_map_length l.length l le_rfl

/-! ## Concrete oracles used by witnesses and counterexamples -/

/-- Collaborators that all succeed: the VAD accepts, transcription returns
"hi", the LLM returns "ok", the TTS returns one audio byte. -/
def oracleAccept : Oracles :=
  ⟨fun _ => true, fun _ => Except.ok ("hi"), fun _ => Except.ok ("ok"),
   fun _ => Except.ok [7]⟩

/-- Collaborators where transcription returns whitespace only. -/
def oracleBlankTr : Oracles :=
  ⟨fun _ => true, fun _ => Except.ok (" "), fun s => Except.ok s,
   fun _ => Except.ok [7]⟩

/-- Collaborators where the LLM reply is whitespace only. -/
def oracleBlankLlm : Oracles :=
  ⟨fun _ => true, fun _ => Except.ok ("hi"), fun _ => Except.ok (" "),
   fun _ => Except.ok [7]⟩

/-- Collaborators where transcription raises. -/
def oracleErrTr : Oracles :=
  ⟨fun _ => true, fun _ => Except.error ("boom"), fun s => Except.ok s,
   fun _ => Except.ok [7]⟩

/-! ## Claim theorems -/

/-- C10: for every input string that is empty or whitespace-only,
`get_llm_response` returns the empty string and `text_to_speech` returns
empty bytes, both immediately and without issuing any HTTP request (empty
call log), whatever the HTTP collaborators would do. -/
theorem C10_blank_input_no_http (llmHttp : String → Except String String)
    (ttsHttp : String → Except String (List ℕ)) (text : String)
    (hb : pyStrip text = "") :
    get_llm_response llmHttp text = (Except.ok "", []) ∧
    text_to_speech ttsHttp text = (Except.ok [], []) := by
  constructor <;> simp [get_llm_response, text_to_speech, hb]

/-- Witness for C10 at the whitespace-only input `" \t\n "`, with HTTP
collaborators that would fail if called. -/
theorem C10_witness :
    get_llm_response (fun _ => Except.error ("net")) (" \t\n ") = (Except.ok "", []) ∧
    text_to_speech (fun _ => Except.error ("net")) (" \t\n ") = (Except.ok [], []) :=
  C10_blank_input_no_http _ _ (" \t\n ") (by decide)

/-- C7: a frame of all-zero samples, of any length including zero, is
rejected by `is_valid_speech` — at the minimum-length check when shorter
than 4800 samples, otherwise at the energy-floor check — for any band-pass
filter that (like the linear `filtfilt` of the source) maps an all-zero
signal to an all-zero signal.  The second conjunct records at which of the
two early checks the rejection happens, so the percentile / frame-partition
step is never reached. -/
theorem C7_zero_frame_rejected (filt : List ℚ → List ℚ) (n : ℕ)
    (hz : filt (List.replicate n 0) = List.replicate n 0) :
    is_valid_speech filt (List.replicate n 0) = false ∧
    (n < 4800 ∨ npMeanAbs (filt (List.replicate n 0)) < MIN_AUDIO_ENERGY) := by
  have hlen : (List.replicate n (0 : ℚ)).length = n := List.length_replicate n 0
  by_cases h : n < 4800
  · refine ⟨?_, Or.inl h⟩
    unfold is_valid_speech
    rw [if_pos]
    rw [hlen]
    show (n : ℚ) < (SAMPLE_RATE : ℚ) * MIN_SPEECH_DURATION
    have : ((SAMPLE_RATE : ℚ)) * MIN_SPEECH_DURATION = 4800 := by
      norm_num [SAMPLE_RATE, MIN_SPEECH_DURATION]
    rw [this]
    exact_mod_cast h
  · have he : npMeanAbs (filt (List.replicate n 0)) < MIN_AUDIO_ENERGY := by
      rw [hz, npMeanAbs_replicate_zero]
      norm_num [MIN_AUDIO_ENERGY]
    refine ⟨?_, Or.inr he⟩
    unfold is_valid_speech
    rw [if_neg, if_pos he]
    rw [hlen]
    have : ((SAMPLE_RATE : ℚ)) * MIN_SPEECH_DURATION = 4800 := by
      norm_num [SAMPLE_RATE, MIN_SPEECH_DURATION]
    rw [this, not_lt]
    exact_mod_cast Nat.le_of_not_lt h

/-- Witness for C7 at an all-zero frame of exactly 4800 samples, with the
identity filter (which maps zeros to zeros). -/
theorem C7_witness :
    is_valid_speech id (List.replicate 4800 0) = false ∧
    (4800 < 4800 ∨ npMeanAbs (id (List.replicate 4800 (0 : ℚ))) < MIN_AUDIO_ENERGY) :=
  C7_zero_frame_rejected id 4800 rfl

/-- C8: a turn whose transcription result is empty or whitespace-only is
abandoned silently: no event at all is emitted (in particular no transcript
event), no reply-generation call is issued (the call log stops at the
transcription call), the buffered chunks are cleared and the session returns
to Idle. -/
theorem C8_blank_transcription_silent (o : Oracles) (st : SessState) (t : String)
    (hc : st.audio_chunks ≠ [])
    (hv : o.vad (assembleFrame st.audio_chunks) = true)
    (ht : o.transcribe (assembleFrame st.audio_chunks) = Except.ok t)
    (hb : pyStrip t = "") :
    processMarker o st =
      (⟨[], false⟩, [],
       [CollabCall.vadCall (assembleFrame st.audio_chunks),
        CollabCall.transcribeCall (assembleFrame st.audio_chunks)]) := by
  simp [processMarker, hc, hv, ht, hb]

/-- Witness for C8: one buffered chunk, transcription returns `" "`. -/
theorem C8_witness :
    processMarker oracleBlankTr ⟨[[1, 2, 3, 4]], false⟩ =
      (⟨[], false⟩, [],
       [CollabCall.vadCall (assembleFrame [[1, 2, 3, 4]]),
        CollabCall.transcribeCall (assembleFrame [[1, 2, 3, 4]])]) :=
  C8_blank_transcription_silent oracleBlankTr ⟨[[1, 2, 3, 4]], false⟩ (" ")
    (by decide) rfl rfl (by decide)

/-- C9: a turn whose LLM reply is empty or whitespace-only emits exactly the
transcript event and the `generating_response` status — no `ai_response`
event, no `generating_audio` or `playing_audio` status and no binary audio
frame — issues no speech-synthesis call (the call log ends at the LLM call),
clears the buffered chunks, and the session returns to Idle. -/
theorem C9_blank_reply_stops_turn (o : Oracles) (st : SessState) (t r : String)
    (hc : st.audio_chunks ≠ [])
    (hv : o.vad (assembleFrame st.audio_chunks) = true)
    (ht : o.transcribe (assembleFrame st.audio_chunks) = Except.ok t)
    (htb : ¬ pyStrip t = "")
    (hr : o.llm_http t = Except.ok r)
    (hrb : pyStrip r = "") :
    processMarker o st =
      (⟨[], false⟩,
       [Output.user_transcription t, Output.status ("generating_response")],
       [CollabCall.vadCall (assembleFrame st.audio_chunks),
        CollabCall.transcribeCall (assembleFrame st.audio_chunks),
        CollabCall.llmCall t]) := by
  simp [processMarker, get_llm_response, hc, hv, ht, htb, hr, hrb]

/-- Witness for C9: transcription returns "hi", the LLM returns `" "`. -/
theorem C9_witness :
    processMarker oracleBlankLlm ⟨[[1, 2, 3, 4]], false⟩ =
      (⟨[], false⟩,
       [Output.user_transcription ("hi"), Output.status ("generating_response")],
       [CollabCall.vadCall (assembleFrame [[1, 2, 3, 4]]),
        CollabCall.transcribeCall (assembleFrame [[1, 2, 3, 4]]),
        CollabCall.llmCall ("hi")]) :=
  C9_blank_reply_stops_turn oracleBlankLlm ⟨[[1, 2, 3, 4]], false⟩ ("hi") (" ")
    (by decide) rfl rfl (by decide) rfl (by decide)

/-- C2: when any of the fallible processing steps of a turn raises —
transcription, reply generation, or speech synthesis (audio assembly is
total here: every buffered chunk is 4-byte aligned by construction, so
`np.frombuffer`/`np.concatenate` cannot fail) — the orchestrator emits an
error event carrying the message, the buffered chunks are cleared, and the
session returns to Idle. -/
theorem C2_step_error_reported (o : Oracles) (st : SessState) (e : String)
    (hc : st.audio_chunks ≠ [])
    (hv : o.vad (assembleFrame st.audio_chunks) = true) :
    (o.transcribe (assembleFrame st.audio_chunks) = Except.error e →
      (processMarker o st).1 = ⟨[], false⟩ ∧
      Output.errorEvent e ∈ (processMarker o st).2.1) ∧
    (∀ t, o.transcribe (assembleFrame st.audio_chunks) = Except.ok t →
      ¬ pyStrip t = "" → o.llm_http t = Except.error e →
      (processMarker o st).1 = ⟨[], false⟩ ∧
      Output.errorEvent e ∈ (processMarker o st).2.1) ∧
    (∀ t r, o.transcribe (assembleFrame st.audio_chunks) = Except.ok t →
      ¬ pyStrip t = "" → o.llm_http t = Except.ok r → ¬ pyStrip r = "" →
      o.tts_http r = Except.error e →
      (processMarker o st).1 = ⟨[], false⟩ ∧
      Output.errorEvent e ∈ (processMarker o st).2.1) := by
  refine ⟨fun ht => ?_, fun t ht htb hl => ?_, fun t r ht htb hl hrb htts => ?_⟩
  · simp [processMarker, hc, hv, ht]
  · simp [processMarker, get_llm_response, hc, hv, ht, htb, hl]
  · simp [processMarker, get_llm_response, text_to_speech, hc, hv, ht, htb,
      hl, hrb, htts]

/-- Witness for C2: a transcription failure on one buffered chunk. -/
theorem C2_witness :
    (processMarker oracleErrTr ⟨[[9, 9, 9, 9]], true⟩).1 = ⟨[], false⟩ ∧
    Output.errorEvent ("boom") ∈ (processMarker oracleErrTr ⟨[[9, 9, 9, 9]], true⟩).2.1 :=
  (C2_step_error_reported oracleErrTr ⟨[[9, 9, 9, 9]], true⟩ ("boom")
    (by decide) rfl).1 rfl

/-- In every branch taken with a non-empty buffer, the end-of-turn handler
issues the VAD check on the assembled frame. -/
lemma vadCall_issued (o : Oracles) (st : SessState) (hc : st.audio_chunks ≠ []) :
    CollabCall.vadCall (assembleFrame st.audio_chunks) ∈ (processMarker o st).2.2 := by
  by_cases hv : o.vad (assembleFrame st.audio_chunks) = true
  · cases htr : o.transcribe (assembleFrame st.audio_chunks) with
    | error e => simp [processMarker, hc, hv, htr]
    | ok t =>
      by_cases htb : pyStrip t = ""
      · simp [processMarker, hc, hv, htr, htb]
      · cases hl : o.llm_http t with
        | error e => simp [processMarker, get_llm_response, hc, hv, htr, htb, hl]
        | ok r =>
          by_cases hrb : pyStrip r = ""
          · simp [processMarker, get_llm_response, hc, hv, htr, htb, hl, hrb]
          · cases htts : o.tts_http r with
            | error e =>
              simp [processMarker, get_llm_response, text_to_speech, hc, hv,
                htr, htb, hl, hrb, htts]
            | ok audio =>
              by_cases ha : audio = []
              · simp [processMarker, get_llm_response, text_to_speech, hc, hv,
                  htr, htb, hl, hrb, htts, ha]
              · simp [processMarker, get_llm_response, text_to_speech, hc, hv,
                  htr, htb, hl, hrb, htts, ha]
  · have hv2 : o.vad (assembleFrame st.audio_chunks) = false := by
      simpa using hv
    simp [processMarker, hc, hv2]

/-- C1 counterexample: with one buffered 4-byte fragment and the session
Recording, `stop_recording` leaves the buffered fragment in place (the claim
says it is discarded), and a subsequent end-of-turn marker finds the
non-empty buffer and issues the VAD check, the transcription call and the
downstream calls on it (the claim says no VAD check or transcription is
issued and the buffer is found empty). -/
theorem C1_counterexample :
    (handleText ⟨[[1, 0, 0, 0]], true⟩ ControlMsg.stop_recording).1.audio_chunks
      = [[1, 0, 0, 0]] ∧
    (processMarker oracleAccept
        (handleText ⟨[[1, 0, 0, 0]], true⟩ ControlMsg.stop_recording).1).2.2
      = [CollabCall.vadCall [[1, 0, 0, 0]],
         CollabCall.transcribeCall [[1, 0, 0, 0]],
         CollabCall.llmCall ("hi"), CollabCall.ttsCall ("ok")] := by
  constructor
  · rfl
  · decide

/-- C1 (amended): a `stop_recording` control command forces the recording
flag off and triggers no processing at that moment, but does NOT discard the
buffered fragments: they are replaced only when a next fragment starts a
fresh recording, and an end-of-turn marker arriving before any new fragment
still finds the retained buffer and issues the VAD check on it. -/
theorem C1_stop_recording_keeps_buffer (o : Oracles) (st : SessState)
    (d : List ℕ) (hd0 : d ≠ []) (hd1 : d ≠ [0]) :
    handleText st ControlMsg.stop_recording = (⟨st.audio_chunks, false⟩, [], []) ∧
    (handleBinary o ⟨st.audio_chunks, false⟩ d).1.audio_chunks = [padChunk d] ∧
    (st.audio_chunks ≠ [] →
      CollabCall.vadCall (assembleFrame st.audio_chunks)
        ∈ (processMarker o ⟨st.audio_chunks, false⟩).2.2) := by
  refine ⟨rfl, ?_, fun hc => ?_⟩
  · simp [handleBinary, hd0, hd1]
  · exact vadCall_issued o ⟨st.audio_chunks, false⟩ hc

/-- Witness for C1 (amended) at one buffered chunk and the next fragment `[9]`. -/
theorem C1_witness :
    handleText ⟨[[5, 6, 7, 8]], true⟩ ControlMsg.stop_recording
      = (⟨[[5, 6, 7, 8]], false⟩, [], []) ∧
    (handleBinary oracleAccept ⟨[[5, 6, 7, 8]], false⟩ [9]).1.audio_chunks
      = [padChunk [9]] ∧
    (([[5, 6, 7, 8]] : List (List ℕ)) ≠ [] →
      CollabCall.vadCall (assembleFrame [[5, 6, 7, 8]])
        ∈ (processMarker oracleAccept ⟨[[5, 6, 7, 8]], false⟩).2.2) :=
  C1_stop_recording_keeps_buffer oracleAccept ⟨[[5, 6, 7, 8]], true⟩ [9]
    (by decide) (by decide)

/-- Folding non-marker, non-empty fragments from a recording state appends
their padded forms in order. -/
lemma runFragments_recording (o : Oracles) :
    ∀ (frags : List (List ℕ)) (acc : List (List ℕ)),
      (∀ f ∈ frags, f ≠ [] ∧ f ≠ [0]) →
      runFragments o ⟨acc, true⟩ frags = ⟨acc ++ frags.map padChunk, true⟩ := by
  intro frags
  induction frags with
  | nil => intro acc _; simp [runFragments]
  | cons f fs ih =>
    intro acc h
    have hf := h f (by simp)
    have hfs : ∀ x ∈ fs, x ≠ [] ∧ x ≠ [0] := fun x hx => h x (by simp [hx])
    simp only [runFragments, List.foldl_cons]
    rw [show (handleBinary o ⟨acc, true⟩ f).1 = ⟨acc ++ [padChunk f], true⟩ by
      simp [handleBinary, hf.1, hf.2]]
    have hrec := ih (acc ++ [padChunk f]) hfs
    simp only [runFragments] at hrec
    rw [hrec]
    simp

/-- C5: for every sequence of non-marker (and non-empty, hence actually
appended) fragments received during one recording followed by an end-of-turn
marker, the buffer holds exactly the padded fragments in arrival order — no
reordering, dropping or deduplication — and the assembled audio frame equals
the concatenation of the zero-padded fragments reinterpreted as 32-bit
(4-byte) samples. -/
theorem C5_frame_assembly (o : Oracles) (b : Bool) (frags : List (List ℕ))
    (h : ∀ f ∈ frags, f ≠ [] ∧ f ≠ [0]) :
    (runFragments o ⟨[], b⟩ frags).audio_chunks = frags.map padChunk ∧
    assembleFrame ((runFragments o ⟨[], b⟩ frags).audio_chunks)
      = toSamples ((frags.map padChunk).flatten) := by
  have hchunks : (runFragments o ⟨[], b⟩ frags).audio_chunks = frags.map padChunk := by
    cases frags with
    | nil => cases b <;> rfl
    | cons f fs =>
      have hf := h f (by simp)
      have hfs : ∀ x ∈ fs, x ≠ [] ∧ x ≠ [0] := fun x hx => h x (by simp [hx])
      have hstep : (handleBinary o ⟨[], b⟩ f).1 = ⟨[padChunk f], true⟩ := by
        cases b <;> simp [handleBinary, hf.1, hf.2]
      simp only [runFragments, List.foldl_cons]
      rw [hstep]
      have hrec := runFragments_recording o fs [padChunk f] hfs
      simp only [runFragments] at hrec
      rw [hrec]
      simp
  refine ⟨hchunks, ?_⟩
  rw [hchunks]
  refine assembleFrame_eq_toSamples (frags.map padChunk) ?_
  intro c hcm
  rcases List.mem_map.mp hcm with ⟨f, _, rfl⟩
  exact padChunk_mod f

/-- Witness for C5: a single 6-byte fragment becomes 8 bytes with two
trailing zero bytes, i.e. the two samples `[1,2,3,4]` and `[5,6,0,0]`. -/
theorem C5_witness :
    (runFragments oracleAccept ⟨[], false⟩ [[1, 2, 3, 4, 5, 6]]).audio_chunks
      = [[1, 2, 3, 4, 5, 6, 0, 0]] ∧
    assembleFrame ((runFragments oracleAccept ⟨[], false⟩ [[1, 2, 3, 4, 5, 6]]).audio_chunks)
      = [[1, 2, 3, 4], [5, 6, 0, 0]] := by
  have h := C5_frame_assembly oracleAccept false [[1, 2, 3, 4, 5, 6]] (by decide)
  refine ⟨?_, ?_⟩
  · rw [h.1]
    decide
  · rw [h.2]
    decide

/-- C3 (amended): for every filtered signal that reaches VAD step 4 (length
at least 4800 samples, energy at or above the floor), the signal is
partitioned by `np.array_split` into `n = ⌊len/400⌋` contiguous frames of
near-equal length — the first `len mod n` frames hold `⌊len/n⌋ + 1` samples
and the rest hold `⌊len/n⌋` (so all frames are exactly 400 samples only when
`len` is a multiple of 400; otherwise the LONG frames come first and there
is no single short final frame) — and concatenating the frames in order
recovers the signal.  Per-frame mean absolute amplitude (`frame_energies`)
is computed over exactly this partition. -/
theorem C3_array_split_partition (filtered : List ℚ)
    (hlen : 4800 ≤ filtered.length)
    (_hen : ¬ npMeanAbs filtered < MIN_AUDIO_ENERGY) :
    (vadFrames filtered).map List.length
      = splitSizes filtered.length (filtered.length / 400) ∧
    (vadFrames filtered).flatten = filtered := by
  have hn : 0 < filtered.length / 400 := by
    have h12 : 4800 / 400 ≤ filtered.length / 400 := Nat.div_le_div_right hlen
    omega
  have hsum : (splitSizes filtered.length (filtered.length / 400)).sum
      = filtered.length := splitSizes_sum _ _ hn
  simp only [vadFrames, array_split, frame_length]
  exact ⟨takeDrop_map_length _ _ (le_of_eq hsum), takeDrop_flatten _ _ hsum⟩

/-- Witness for C3 (amended) at a constant signal of 4800 samples. -/
theorem C3_witness :
    4800 ≤ (List.replicate 4800 (1 : ℚ)).length ∧
    ¬ npMeanAbs (List.replicate 4800 (1 : ℚ)) < MIN_AUDIO_ENERGY ∧
    ((vadFrames (List.replicate 4800 (1 : ℚ))).map List.length
        = splitSizes (List.replicate 4800 (1 : ℚ)).length
            ((List.replicate 4800 (1 : ℚ)).length / 400) ∧
     (vadFrames (List.replicate 4800 (1 : ℚ))).flatten
        = List.replicate 4800 (1 : ℚ)) := by
  have h1 : 4800 ≤ (List.replicate 4800 (1 : ℚ)).length := by
    simp only [List.length_replicate, le_refl]
  have h2 : ¬ npMeanAbs (List.replicate 4800 (1 : ℚ)) < MIN_AUDIO_ENERGY := by
    rw [npMeanAbs_replicate 4800 1 (by norm_num)]
    norm_num [MIN_AUDIO_ENERGY]
  exact ⟨h1, h2, C3_array_split_partition _ h1 h2⟩

/-- C3 counterexample: the constant signal of 4801 samples reaches step 4
(length ≥ 4800, energy 1 ≥ floor), yet the source partition
(`np.array_split` into 12 near-equal parts) yields frame lengths
`[401, 400, ..., 400]` — the FIRST frame is long — while the claim's
partition (fixed 400-sample frames with one short final frame) would yield
`[400 × 12, 1]`.  The two partitions differ. -/
theorem C3_counterexample :
    4800 ≤ (List.replicate 4801 (1 : ℚ)).length ∧
    ¬ npMeanAbs (List.replicate 4801 (1 : ℚ)) < MIN_AUDIO_ENERGY ∧
    (vadFrames (List.replicate 4801 (1 : ℚ))).map List.length
      = 401 :: List.replicate 11 400 ∧
    (specFrames (List.replicate 4801 (1 : ℚ))).map List.length
      = List.replicate 12 400 ++ [1] ∧
    (401 :: List.replicate 11 400 : List ℕ) ≠ List.replicate 12 400 ++ [1] := by
  have hlen : (List.replicate 4801 (1 : ℚ)).length = 4801 := by
    simp only [List.length_replicate]
  refine ⟨by rw [hlen]; omega, ?_, ?_, ?_, by decide⟩
  · rw [npMeanAbs_replicate 4801 1 (by norm_num)]
    norm_num [MIN_AUDIO_ENERGY]
  · simp only [vadFrames, array_split, frame_length, hlen]
    have hs : splitSizes 4801 (4801 / 400) = 401 :: List.replicate 11 400 := by
      decide
    rw [hs]
    refine takeDrop_map_length _ _ ?_
    rw [hlen]
    decide
  · rw [specFrames_map_length, hlen]
    decide

/-- The `np.array_split` partition of the concrete C4 signal: 1200 samples
of amplitude 1 followed by 6800 zeros, split into 20 frames of 400. -/
lemma c4_frames :
    vadFrames (List.replicate 1200 (1 : ℚ) ++ List.replicate 6800 0)
      = List.replicate 3 (List.replicate 400 (1 : ℚ))
        ++ List.replicate 17 (List.replicate 400 (0 : ℚ)) := by
  have hlen : (List.replicate 1200 (1 : ℚ) ++ List.replicate 6800 0).length = 8000 := by
    simp only [List.length_append, List.length_replicate]
  simp only [vadFrames, array_split, frame_length, hlen]
  have hs : splitSizes 8000 (8000 / 400)
      = List.replicate 3 400 ++ List.replicate 17 400 := by decide
  rw [hs]
  rw [show List.replicate 1200 (1 : ℚ) = List.replicate (3 * 400) (1 : ℚ) by norm_num]
  rw [show List.replicate 6800 (0 : ℚ) = List.replicate (17 * 400) (0 : ℚ) ++ [] by
    norm_num]
  rw [show (List.replicate 17 400 : List ℕ) = List.replicate 17 400 ++ [] by
    rw [List.append_nil]]
  rw [takeDrop_blocks, takeDrop_blocks]
  rfl

/-- The per-frame energies of the concrete C4 signal: three frames of energy
1, seventeen of energy 0. -/
lemma c4_energies :
    frame_energies (List.replicate 1200 (1 : ℚ) ++ List.replicate 6800 0)
      = List.replicate 3 (1 : ℚ) ++ List.replicate 17 (0 : ℚ) := by
  rw [frame_energies, c4_frames]
  rw [List.map_append, List.map_replicate, List.map_replicate,
    npMeanAbs_replicate 400 1 (by norm_num), npMeanAbs_replicate 400 0 (by norm_num)]
  norm_num

/-- C4 counterexample: the 8000-sample signal with exactly 3 of its 20 frames
above the threshold reaches the ratio step (length 8000 ≥ 4800, mean energy
3/20 ≥ 0.0005), has speech fraction exactly 15/100 — which the claim says is
accepted ("at least 15%") — yet `is_valid_speech` rejects it, because the
source tests `speech_ratio > 0.15` strictly. -/
theorem C4_counterexample :
    is_valid_speech id (List.replicate 1200 (1 : ℚ) ++ List.replicate 6800 0) = false ∧
    (((frame_energies (List.replicate 1200 (1 : ℚ) ++ List.replicate 6800 0)).filter
        (fun e => speech_threshold
          (frame_energies (List.replicate 1200 (1 : ℚ) ++ List.replicate 6800 0)) < e)).length : ℚ)
      / ((vadFrames (List.replicate 1200 (1 : ℚ) ++ List.replicate 6800 0)).length : ℚ)
      = 15 / 100 := by
  have hlen : (List.replicate 1200 (1 : ℚ) ++ List.replicate 6800 0).length = 8000 := by
    simp only [List.length_append, List.length_replicate]
  have hene : npMeanAbs (List.replicate 1200 (1 : ℚ) ++ List.replicate 6800 0) = 3 / 20 := by
    unfold npMeanAbs
    rw [List.map_append, List.map_replicate, List.map_replicate, abs_one, abs_zero,
      List.sum_append, List.sum_replicate, List.sum_replicate, hlen]
    norm_num
  have hfr20 : ((vadFrames (List.replicate 1200 (1 : ℚ) ++ List.replicate 6800 0)).length : ℚ)
      = 20 := by
    rw [c4_frames]
    simp only [List.length_append, List.length_replicate]
    norm_num
  have hsort : (List.replicate 3 (1 : ℚ) ++ List.replicate 17 0).insertionSort (· ≤ ·)
      = List.replicate 17 (0 : ℚ) ++ List.replicate 3 1 := by decide
  have hp10 : percentile10 (List.replicate 3 (1 : ℚ) ++ List.replicate 17 0) = 0 := by
    simp only [percentile10, hsort, List.length_append, List.length_replicate]
    norm_num
    simp only [List.getElem_append, List.getElem_replicate]
    norm_num
  have hmk : (mkRat 1 200 : ℚ) = 5 / 1000 := by
    rw [Rat.mkRat_eq_divInt, Rat.divInt_eq_div]
    norm_num
  have hthr : speech_threshold (List.replicate 3 (1 : ℚ) ++ List.replicate 17 0)
      = mkRat 1 200 := by
    unfold speech_threshold
    rw [hp10, zero_mul, max_eq_left (by norm_num [SILENCE_THRESHOLD]), hmk]
    rfl
  have hcount : (List.filter (fun e => decide (mkRat 1 200 < e))
      (List.replicate 3 (1 : ℚ) ++ List.replicate 17 0)).length = 3 := by decide
  constructor
  · unfold is_valid_speech
    rw [if_neg (by
      rw [hlen]
      norm_num [SAMPLE_RATE, MIN_SPEECH_DURATION])]
    simp only [id_eq]
    rw [if_neg (by
      rw [hene]
      norm_num [MIN_AUDIO_ENERGY])]
    unfold vadRatioAccept
    simp only [decide_eq_false_iff_not, not_lt]
    rw [c4_energies, hfr20, hthr, hcount]
    norm_num
  · rw [c4_energies, hfr20, hthr, hcount]
    norm_num

/-- C4 (amended): for every filtered signal that reaches the VAD ratio step
(length at least 4800 samples, mean energy at or above the floor), the
speech-frame threshold equals `max(0.005, 3 × 10th percentile of per-frame
energies)`, and the turn is accepted if and only if STRICTLY more than 15%
of the frames have energy exceeding that threshold — a signal with exactly
15% of frames above threshold is rejected. -/
theorem C4_ratio_threshold (filt : List ℚ → List ℚ) (x : List ℚ)
    (h1 : ¬ ((x.length : ℚ) < (SAMPLE_RATE : ℚ) * MIN_SPEECH_DURATION))
    (h2 : ¬ npMeanAbs (filt x) < MIN_AUDIO_ENERGY) :
    (is_valid_speech filt x = true ↔
      (15 : ℚ) / 100 <
        (((frame_energies (filt x)).filter
            (fun e => max ((5 : ℚ) / 1000) (percentile10 (frame_energies (filt x)) * 3)
              < e)).length : ℚ)
          / ((vadFrames (filt x)).length : ℚ)) := by
  unfold is_valid_speech
  rw [if_neg h1, if_neg h2]
  unfold vadRatioAccept speech_threshold SILENCE_THRESHOLD
  simp only [decide_eq_true_eq]

/-- Witness for C4 (amended) at the constant signal of 4800 ones with the
identity filter. -/
theorem C4_witness :
    (¬ (((List.replicate 4800 (1 : ℚ)).length : ℚ)
        < (SAMPLE_RATE : ℚ) * MIN_SPEECH_DURATION)) ∧
    (¬ npMeanAbs (id (List.replicate 4800 (1 : ℚ))) < MIN_AUDIO_ENERGY) ∧
    (is_valid_speech id (List.replicate 4800 (1 : ℚ)) = true ↔
      (15 : ℚ) / 100 <
        (((frame_energies (id (List.replicate 4800 (1 : ℚ)))).filter
            (fun e => max ((5 : ℚ) / 1000)
              (percentile10 (frame_energies (id (List.replicate 4800 (1 : ℚ)))) * 3)
              < e)).length : ℚ)
          / ((vadFrames (id (List.replicate 4800 (1 : ℚ)))).length : ℚ)) := by
  have h1 : ¬ (((List.replicate 4800 (1 : ℚ)).length : ℚ)
      < (SAMPLE_RATE : ℚ) * MIN_SPEECH_DURATION) := by
    rw [List.length_replicate]
    norm_num [SAMPLE_RATE, MIN_SPEECH_DURATION]
  have h2 : ¬ npMeanAbs (id (List.replicate 4800 (1 : ℚ))) < MIN_AUDIO_ENERGY := by
    simp only [id_eq]
    rw [npMeanAbs_replicate 4800 1 (by norm_num)]
    norm_num [MIN_AUDIO_ENERGY]
  exact ⟨h1, h2, C4_ratio_threshold id _ h1 h2⟩

end FrankAI
